import Mathlib

/-!
Shallow embedding of the smg-comms message, socket and service layers,
with theorems checking the natural-language specification against the code.

Source files embedded:
  - smg/comms/base/frame_message.py
  - smg/comms/base/simple_message.py
  - smg/comms/base/binary_mask_message.py
  - smg/comms/base/socket_util.py
  - smg/comms/mapping/mapping_client.py
  - smg/comms/mapping/mapping_server.py
  - smg/comms/skeletons/skeleton_detection_service.py

The base-layer files message.py, ack_message.py, calibration_message.py and
frame_header_message.py are referenced by the package but are not present in
the source tree; the few facts needed from them are modelled from the spec
and marked as such below.
-/

namespace SmgComms

/-! ### The struct-format layer

The Python code serialises scalars with the `struct` module.  A format string
either starts with a byte-order character (the code only ever uses the
explicit little-endian marker, as in the strings of frame_message.py) or
starts directly with field characters, in which case the platform's native
byte order applies (the format string of simple_message.py).  We embed a
format as its byte-order mark plus its list of field characters, and make the
platform's native byte order an explicit parameter of packing. -/

/-- Field characters of the `struct` formats used by the messages. -/
inductive StructField
  | i32  -- "i": 4-byte signed integer
  | f64  -- "d": 8-byte IEEE double
  | f32  -- "f": 4-byte IEEE float
deriving DecidableEq, Repr

/-- Byte-order mark of a `struct` format string: an explicit little-endian
marker, or none (native byte order). -/
inductive ByteOrder
  | little
  | native
deriving DecidableEq, Repr

/-- A `struct` format: byte-order mark plus field characters. -/
structure StructFmt where
  order : ByteOrder
  fields : List StructField
deriving DecidableEq, Repr

/-- The byte size of one field character. -/
def fieldSize : StructField → Nat
  | .i32 => 4
  | .f64 => 8
  | .f32 => 4

/-- `struct.calcsize` on the formats used by the messages (no padding is ever
introduced: each format is homogeneous or a single field). -/
def calcsize (fmt : StructFmt) : Nat :=
  (fmt.fields.map fieldSize).sum

/-- The little-endian byte serialisation of a `width`-byte unsigned value. -/
def leBytes (width v : Nat) : List Nat :=
  (List.range width).map fun k => v / 256 ^ k % 256

/-- Whether a byte-order mark resolves to little-endian on a platform whose
native order is little-endian iff `nativeLittle`. -/
def resolvesLittle (nativeLittle : Bool) : ByteOrder → Bool
  | .little => true
  | .native => nativeLittle

/-- Pack one `width`-byte scalar (given as its unsigned bit pattern) under a
byte-order mark, on a platform whose native order is given by
`nativeLittle`. -/
def packScalar (nativeLittle : Bool) (bo : ByteOrder) (width v : Nat) : List Nat :=
  if resolvesLittle nativeLittle bo then leBytes width v else (leBytes width v).reverse

/-- The two's-complement 32-bit pattern of a signed integer, as packed by
`struct` for field character "i". -/
def int32Encode (v : Int) : Nat :=
  (v % (2 ^ 32 : Int)).toNat

/-! ### Message base class

Modelled from the spec: message.py is absent from the source tree.  The spec
says every message is a contiguous byte buffer whose fields live at byte
offsets, so a segment is a (start, length) pair and the end of a segment is
start + length; a message's size is the length of its buffer. -/

/-- Modelled from the spec: `Message._end_of` of the absent message.py — the
first byte offset after a (start, length) segment of a contiguous buffer. -/
def Message.end_of (segment : Nat × Nat) : Nat :=
  segment.1 + segment.2

namespace FrameMessage

/-- The format of the frame index segment ("<i" in frame_message.py). -/
def frame_index_fmt : StructFmt := ⟨.little, [.i32]⟩

/-- The format of the frame timestamp segment ("<d" in frame_message.py). -/
def frame_timestamp_fmt : StructFmt := ⟨.little, [.f64]⟩

/-- The byte size of one pose: `calcsize` of sixteen little-endian floats. -/
def pose_byte_size : Nat := calcsize ⟨.little, List.replicate 16 .f32⟩

/-- The format of the poses segment: sixteen little-endian floats per image
shape passed to the constructor. -/
def poses_fmt (numImages : Nat) : StructFmt :=
  ⟨.little, List.replicate (16 * numImages) .f32⟩

/-- The (start, length) segment holding the frame index. -/
def frame_index_segment : Nat × Nat := (0, calcsize frame_index_fmt)

/-- The (start, length) segment holding the frame timestamp. -/
def frame_timestamp_segment : Nat × Nat :=
  (Message.end_of frame_index_segment, calcsize frame_timestamp_fmt)

/-- The (start, length) segment holding the poses. -/
def poses_segment (numImages : Nat) : Nat × Nat :=
  (Message.end_of frame_timestamp_segment, calcsize (poses_fmt numImages))

/-- The (start, length) segment holding the images. -/
def images_segment (numImages : Nat) (image_byte_sizes : List Nat) : Nat × Nat :=
  (Message.end_of (poses_segment numImages), image_byte_sizes.sum)

/-- The size of the buffer allocated by `FrameMessage.__init__` for the given
image shapes and image byte sizes. -/
def dataSize (image_shapes : List (Nat × Nat × Nat)) (image_byte_sizes : List Nat) : Nat :=
  Message.end_of (images_segment image_shapes.length image_byte_sizes)

/-- The bytes `set_frame_index` stores at offset 0, as a function of the
platform's native byte order. -/
def frame_index_bytes (nativeLittle : Bool) (v : Int) : List Nat :=
  packScalar nativeLittle frame_index_fmt.order 4 (int32Encode v)

/-- The bytes `set_frame_timestamp` stores at offset 4, as a function of the
platform's native byte order; `bits` is the IEEE 754 bit pattern of the
double being stored. -/
def frame_timestamp_bytes (nativeLittle : Bool) (bits : Nat) : List Nat :=
  packScalar nativeLittle frame_timestamp_fmt.order 8 bits

end FrameMessage

namespace SimpleMessage

/-- The format that `SimpleMessage.__init__` selects for the type int: the
string "i", which carries no byte-order mark and hence uses the platform's
native byte order. -/
def fmt : StructFmt := ⟨.native, [.i32]⟩

/-- The size of the buffer allocated for a `Simple<int>` message. -/
def intSize : Nat := 4

/-- The buffer contents after `set_value v`, as a function of the platform's
native byte order. -/
def value_bytes (nativeLittle : Bool) (v : Int) : List Nat :=
  packScalar nativeLittle fmt.order intSize (int32Encode v)

end SimpleMessage

/-! ### Socket I/O layer (socket_util.py)

The socket is modelled as a stream of receive events: each `recv` call either
yields a chunk of bytes (an empty chunk being the peer's half-close), times
out, or raises a connection error.  `recv n` never yields more than `n`
bytes, which the model expresses by truncating the event's chunk to the
requested length. -/

/-- One outcome of a `sock.recv` call. -/
inductive RecvEvent
  | chunk (bs : List Nat)  -- bytes received; [] models a zero-length read
  | timeout                -- socket.timeout raised
  | connError              -- a connection error raised
deriving DecidableEq, Repr

namespace SocketUtil

/-- The read loop of `SocketUtil.read_message`: until `size` bytes have been
accumulated, keep issuing `recv` calls; a zero-length read or a connection
error aborts with failure, a timeout aborts with failure only when the
stop-waiting event is set.  Returns none when the event stream runs out
before the loop decides. -/
def readLoop (size : Nat) (stop : Bool) : List Nat → List RecvEvent → Option (Bool × List Nat)
  | acc, evs =>
    if acc.length < size then
      match evs with
      | [] => none
      | .chunk bs :: rest =>
          let received := bs.take (size - acc.length)
          if 0 < received.length then readLoop size stop (acc ++ received) rest
          else some (false, acc)
      | .timeout :: rest =>
          if stop then some (false, acc) else readLoop size stop acc rest
      | .connError :: _ => some (false, acc)
    else
      some (true, acc)

/-- `SocketUtil.read_message`: `buf` is the message's current buffer (whose
length is the message size); on success the accumulated bytes replace the
buffer, on failure the buffer is left unchanged. -/
def read_message (buf : List Nat) (stop : Bool) (evs : List RecvEvent) :
    Option (Bool × List Nat) :=
  match readLoop buf.length stop [] evs with
  | none => none
  | some (true, data) => some (true, data)
  | some (false, _) => some (false, buf)

end SocketUtil

/-- An exception `sock.sendall` can raise: the two `ConnectionError`
subclasses named in write_message's except clause, `BrokenPipeError` (the
`ConnectionError` subclass raised when sending on a connection the peer has
closed), and `socket.timeout` (the sockets of this codebase carry send/recv
timeouts). -/
inductive SendError
  | connAborted  -- ConnectionAbortedError
  | connReset    -- ConnectionResetError
  | brokenPipe   -- BrokenPipeError
  | timedOut     -- socket.timeout
deriving DecidableEq, Repr

/-- Whether an exception is a connection error (a `ConnectionError`
subclass). -/
def isConnectionError : SendError → Bool
  | .connAborted => true
  | .connReset => true
  | .brokenPipe => true
  | .timedOut => false

namespace SocketUtil

/-- The except clause of `write_message` names exactly
`(ConnectionAbortedError, ConnectionResetError)`; any other exception is not
caught. -/
def caughtByWrite : SendError → Bool
  | .connAborted => true
  | .connReset => true
  | .brokenPipe => false
  | .timedOut => false

/-- `SocketUtil.write_message`: `sendall` either writes every byte of the
message, or raises `err` after `k` bytes (`some (err, k)`).  An error named
in the except clause yields a false return; any other exception propagates
out of the function (`Except.error`). -/
def write_message (msgBytes : List Nat) (outcome : Option (SendError × Nat)) :
    Except SendError (Bool × List Nat) :=
  match outcome with
  | none => .ok (true, msgBytes)
  | some (err, k) =>
      if caughtByWrite err then .ok (false, msgBytes.take k)
      else .error err

end SocketUtil

/-! ### Binary mask packing (binary_mask_message.py)

The mask is a height×width image of uint8 values, row-major.  `np.packbits`
maps each entry to a bit (1 for nonzero entries), packs eight bits to a byte
MSB-first, and zero-pads the final byte; `np.unpackbits` with a count takes
the first `count` bits of the byte sequence. -/

/-- The bit `np.packbits` derives from one mask entry: 1 for nonzero. -/
def bitOf (v : Nat) : Nat := if v = 0 then 0 else 1

/-- Pack a list of eight bits MSB-first into one byte value. -/
def packByte (bits : List Nat) : Nat := bits.foldl (fun a b => 2 * a + b) 0

/-- Zero-pad a block of at most eight bits up to eight, as `np.packbits` pads
the final byte. -/
def pad8 (bits : List Nat) : List Nat := bits ++ List.replicate (8 - bits.length) 0

/-- The eight bits of a byte, MSB-first, as `np.unpackbits` produces them. -/
def byteToBits (b : Nat) : List Nat :=
  [b / 128 % 2, b / 64 % 2, b / 32 % 2, b / 16 % 2, b / 8 % 2, b / 4 % 2, b / 2 % 2, b % 2]

/-- `np.packbits`, fuelled for structural recursion over eight-entry blocks;
the fuel is the list length, which bounds the number of blocks. -/
def packbitsAux : Nat → List Nat → List Nat
  | _, [] => []
  | 0, _ :: _ => []
  | fuel + 1, v :: vs =>
      packByte (pad8 (((v :: vs).take 8).map bitOf)) :: packbitsAux fuel ((v :: vs).drop 8)

/-- `np.packbits` on a flat (row-major) list of mask entries. -/
def packbits (vs : List Nat) : List Nat := packbitsAux vs.length vs

/-- `np.unpackbits` with an explicit count. -/
def unpackbits (bytes : List Nat) (count : Nat) : List Nat :=
  (bytes.flatMap byteToBits).take count

/-- A binary mask: an ndarray of shape (height, width), stored as its shape
plus the row-major concatenation of its rows. -/
structure Mask where
  shape : Nat × Nat
  entries : List Nat
deriving DecidableEq, Repr

/-- The in-memory `BinaryMaskMessage`: the shape declared at construction and
the bit-packed buffer. -/
structure BinaryMaskMessage where
  mask_shape : Nat × Nat
  data : List Nat
deriving DecidableEq, Repr

namespace BinaryMaskMessage

/-- `BinaryMaskMessage.__init__`: allocate a zeroed buffer of
`int(np.ceil(h·w / 8))` = ⌈h·w/8⌉ bytes. -/
def create (mask_shape : Nat × Nat) : BinaryMaskMessage :=
  ⟨mask_shape, List.replicate ((mask_shape.1 * mask_shape.2 + 7) / 8) 0⟩

/-- `BinaryMaskMessage.set_mask`: if the new mask has the declared shape the
buffer is replaced by its packed bits, otherwise a RuntimeError is raised
(second component) and the message is left as it was (first component). -/
def set_mask (msg : BinaryMaskMessage) (mask : Mask) : BinaryMaskMessage × Option String :=
  if mask.shape = msg.mask_shape then ({ msg with data := packbits mask.entries }, none)
  else (msg, some "The binary mask has the wrong shape")

/-- `BinaryMaskMessage.get_mask`: unpack height·width bits from the buffer,
multiply by 255, and reshape to the declared shape. -/
def get_mask (msg : BinaryMaskMessage) : Mask :=
  ⟨msg.mask_shape,
   (unpackbits msg.data (msg.mask_shape.1 * msg.mask_shape.2)).map fun b => b * 255⟩

end BinaryMaskMessage

/-! ### Mapping client (mapping_client.py)

Frames are abstracted to identifiers; the frame header built for a frame is
determined by that frame (its image shapes and byte sizes), so the wire trace
records which frame each header and frame message belongs to.
FrameHeaderMessage itself is absent from the source tree; only the fact that
the sender writes one header per frame, modelled from the spec's on-wire
sequence FrameHeader → Frame → Ack, is needed here. -/

/-- One thing the sender loop successfully puts on (or reads off) the wire. -/
inductive WireEvent
  | header (f : Nat)  -- the FrameHeaderMessage built from frame f
  | frame (f : Nat)   -- the frame message f itself
  | ackRead           -- an acknowledgement read back from the server
deriving DecidableEq, Repr

/-- The state of `__run_message_sender`: the frame message queue (head =
oldest), the should-terminate flag (the loop also clears `connection_ok` on
failure, but always sets the flag at the same time, so the flag alone decides
the loop), and the trace of successful socket operations so far. -/
structure SenderState where
  queue : List Nat
  stop : Bool
  trace : List WireEvent
deriving DecidableEq, Repr

namespace MappingClient

/-- One iteration of `__run_message_sender`.  `comp` is the optional frame
compressor (the identity when none is installed); `io` gives the outcomes of
the header write, the frame write and the ack read, chained with `and` in the
source so that a failure skips the remaining operations.  On success the head
frame is popped; on any failure the termination flag is set and the head
stays. -/
def senderStep (comp : Nat → Nat) (st : SenderState) (io : Bool × Bool × Bool) : SenderState :=
  if st.stop then st
  else
    match st.queue with
    | [] => st
    | f :: rest =>
        let g := comp f
        if io.1 = false then { st with stop := true }
        else if io.2.1 = false then { st with trace := st.trace ++ [.header g], stop := true }
        else if io.2.2 = false then
          { st with trace := st.trace ++ [.header g, .frame g], stop := true }
        else { st with queue := rest, trace := st.trace ++ [.header g, .frame g, .ackRead] }

/-- The sender loop run over a sequence of per-iteration I/O outcomes. -/
def senderRun (comp : Nat → Nat) (st : SenderState) (ios : List (Bool × Bool × Bool)) :
    SenderState :=
  ios.foldl (senderStep comp) st

end MappingClient

/-- The client state that `send_calibration_message` touches: the cached
calibration message (abstracted to an identifier), the capacity the frame
message queue was initialised with (none before initialisation), and whether
the message sender thread has been started. -/
structure MappingClientState where
  calib_msg : Option Nat
  queue_capacity : Option Nat
  sender_started : Bool
deriving DecidableEq, Repr

namespace MappingClient

/-- `MappingClient.send_calibration_message`: write the calibration message,
then read an Ack (the read is attempted only if the write succeeded).  If
either fails, raise (second component true) leaving the state untouched;
otherwise cache the calibration, initialise the queue with capacity 1 and
start the sender thread. -/
def send_calibration_message (st : MappingClientState) (calib : Nat)
    (writeOk ackOk : Bool) : MappingClientState × Bool :=
  let connection_ok := writeOk && ackOk
  if connection_ok then
    ({ calib_msg := some calib, queue_capacity := some 1, sender_started := true }, false)
  else
    (st, true)

end MappingClient

/-! ### Skeleton detection service (skeleton_detection_service.py) -/

/-- A message the skeleton service writes back to its client. -/
inductive SkelWire
  | simpleInt (n : Nat)                -- SimpleMessage[int](int, n)
  | dataMsg (bs : List Nat)            -- DataMessage carrying bs
  | binaryMask (m : BinaryMaskMessage) -- BinaryMaskMessage for the people mask
deriving DecidableEq, Repr

/-- The service state that the END_DETECTION branch touches: the skeletons
detected by the last BEGIN_DETECTION (abstracted to a value the serialiser
consumes) and the people mask rendered for them. -/
structure SkelServiceState where
  skeletons : Option (List Nat)
  people_mask : Option Mask
deriving DecidableEq, Repr

namespace SkeletonDetectionService

/-- The END_DETECTION branch of the service's control dispatch.  `ser` is the
external UTF-8 serialisation `bytes(repr(skeletons), "utf-8")`; `w1 w2 w3`
are the outcomes of the three `write_message` calls, chained with `and` so a
failure skips the rest.  Returns the new state, the messages actually
written in order, and the resulting `connection_ok` flag. -/
def handleEndDetection (ser : List Nat → List Nat) (st : SkelServiceState)
    (w1 w2 w3 : Bool) : SkelServiceState × List SkelWire × Bool :=
  match st.skeletons with
  | some sk =>
      let data := ser sk
      let mask := st.people_mask.getD ⟨(0, 0), []⟩
      let mask_msg := ((BinaryMaskMessage.create mask.shape).set_mask mask).1
      let written : List SkelWire :=
        if w1 then
          .simpleInt data.length ::
            (if w2 then .dataMsg data :: (if w3 then [.binaryMask mask_msg] else []) else [])
        else []
      (⟨none, none⟩, written, w1 && w2 && w3)
  | none => (st, [], true)

end SkeletonDetectionService

/-! ### Mapping server (mapping_server.py) -/

/-- The server state that `has_finished` / `has_more_frames` consult: the set
of finished clients, plus the active client handlers with their queued frames
(carried along to show the queries ignore them). -/
structure MappingServerState where
  finished_clients : List Nat
  client_handlers : List (Nat × List Nat)
deriving DecidableEq, Repr

namespace MappingServer

/-- `MappingServer.has_finished`: membership of the finished-clients set. -/
def has_finished (st : MappingServerState) (client_id : Nat) : Bool :=
  decide (client_id ∈ st.finished_clients)

/-- `MappingServer.has_more_frames`: the negation of `has_finished`. -/
def has_more_frames (st : MappingServerState) (client_id : Nat) : Bool :=
  !(has_finished st client_id)

end MappingServer

end SmgComms

namespace SmgComms

/-- C1: the buffer a `FrameMessage` allocates has size
4 (frame index) + 8 (timestamp) + 64 per image shape + the sum of the
announced image byte sizes. -/
theorem frame_message_size (image_shapes : List (Nat × Nat × Nat))
    (image_byte_sizes : List Nat) :
    FrameMessage.dataSize image_shapes image_byte_sizes
      = 4 + 8 + 64 * image_shapes.length + image_byte_sizes.sum := by
  simp [FrameMessage.dataSize, FrameMessage.images_segment, FrameMessage.poses_segment,
    FrameMessage.frame_timestamp_segment, FrameMessage.frame_index_segment,
    FrameMessage.poses_fmt, FrameMessage.frame_index_fmt, FrameMessage.frame_timestamp_fmt,
    Message.end_of, calcsize, fieldSize, List.map_replicate, List.sum_replicate, smul_eq_mul]
  ring

/-- C7 counterexample: on a platform whose native byte order is big-endian,
the payload of a `Simple<int>` message (format string "i", no byte-order
mark) is not the little-endian serialisation: storing the value 1 yields the
bytes [0, 0, 0, 1] rather than [1, 0, 0, 0]. -/
theorem simple_message_value_not_always_little_endian :
    ¬ SimpleMessage.value_bytes false 1 = leBytes 4 (int32Encode 1) := by
  decide

/-- C7 amended: `FrameMessage`'s frame_index ("<i") and frame_timestamp
("<d") are stored little-endian on every platform, whereas the payload of a
`Simple<int>` (and hence Control) message is a 4-byte signed integer in the
platform's native byte order: little-endian exactly on little-endian
platforms, byte-reversed on big-endian ones. -/
theorem multi_byte_scalar_endianness (nativeLittle : Bool) (v : Int) (bits : Nat) :
    FrameMessage.frame_index_bytes nativeLittle v = leBytes 4 (int32Encode v) ∧
    FrameMessage.frame_timestamp_bytes nativeLittle bits = leBytes 8 bits ∧
    SimpleMessage.value_bytes true v = leBytes 4 (int32Encode v) ∧
    SimpleMessage.value_bytes false v = (leBytes 4 (int32Encode v)).reverse :=
  ⟨rfl, rfl, rfl, rfl⟩

/-- Auxiliary invariant for the read loop: a successful exit returns a buffer
of exactly `size` bytes, provided the accumulator never exceeds `size` (true
of the initial empty accumulator, and preserved because each `recv` asks only
for the bytes still missing). -/
lemma readLoop_true_length (size : Nat) (stop : Bool) :
    ∀ (evs : List RecvEvent) (acc data : List Nat), acc.length ≤ size →
      SocketUtil.readLoop size stop acc evs = some (true, data) → data.length = size := by
  intro evs
  induction evs with
  | nil =>
      intro acc data hle h
      rw [SocketUtil.readLoop.eq_def] at h
      by_cases hlt : acc.length < size
      · simp [hlt] at h
      · simp [hlt] at h
        subst h
        omega
  | cons ev rest ih =>
      intro acc data hle h
      rw [SocketUtil.readLoop.eq_def] at h
      by_cases hlt : acc.length < size
      · simp only [if_pos hlt] at h
        cases ev with
        | chunk bs =>
            simp only at h
            by_cases hr : 0 < (bs.take (size - acc.length)).length
            · simp only [if_pos hr] at h
              exact ih _ _ (by simp [List.length_take]; omega) h
            · simp only [if_neg hr] at h
              simp at h
        | timeout =>
            by_cases hs : stop = true
            · simp [hs] at h
            · rw [Bool.not_eq_true] at hs
              subst hs
              simp only [Bool.false_eq_true, if_false] at h
              exact ih _ _ hle h
        | connError => simp at h
      · simp [hlt] at h
        subst h
        omega

/-- C2: over the byte-stream model of the socket, `read_message` (a) returns
true immediately for a 0-byte message such as Ack; (b) on success replaces
the buffer with exactly `msg.size` received bytes; (c) returns false on a
zero-length read while bytes remain; (d) returns false on a connection error;
(e) on a read timeout returns false if the stop event is set and otherwise
continues waiting. -/
theorem read_message_spec :
    (∀ stop evs, SocketUtil.read_message [] stop evs = some (true, [])) ∧
    (∀ buf stop evs data, SocketUtil.read_message buf stop evs = some (true, data) →
      data.length = buf.length) ∧
    (∀ buf stop rest, 0 < buf.length →
      SocketUtil.read_message buf stop (.chunk [] :: rest) = some (false, buf)) ∧
    (∀ buf stop rest, 0 < buf.length →
      SocketUtil.read_message buf stop (.connError :: rest) = some (false, buf)) ∧
    (∀ buf rest, 0 < buf.length →
      SocketUtil.read_message buf true (.timeout :: rest) = some (false, buf) ∧
      SocketUtil.read_message buf false (.timeout :: rest) =
        SocketUtil.read_message buf false rest) := by
  refine ⟨?_, ?_, ?_, ?_, ?_⟩
  · intro stop evs
    rw [SocketUtil.read_message, SocketUtil.readLoop.eq_def]
    simp
  · intro buf stop evs data h
    rw [SocketUtil.read_message] at h
    cases heq : SocketUtil.readLoop buf.length stop [] evs with
    | none => rw [heq] at h; simp at h
    | some r =>
        rw [heq] at h
        obtain ⟨b, d⟩ := r
        cases b with
        | true =>
            simp at h
            subst h
            exact readLoop_true_length buf.length stop evs [] _ (by simp) heq
        | false => simp at h
  · intro buf stop rest hpos
    rw [SocketUtil.read_message, SocketUtil.readLoop.eq_def]
    simp [hpos]
  · intro buf stop rest hpos
    rw [SocketUtil.read_message, SocketUtil.readLoop.eq_def]
    simp [hpos]
  · intro buf rest hpos
    constructor
    · rw [SocketUtil.read_message, SocketUtil.readLoop.eq_def]
      simp [hpos]
    · rw [SocketUtil.read_message, SocketUtil.read_message, SocketUtil.readLoop.eq_def]
      simp [hpos]

/-- C2 witness: instantiating the timeout clause at a concrete 2-byte buffer
with the stop event set. -/
theorem read_message_spec_witness :
    0 < [(7 : Nat), 7].length ∧
    SocketUtil.read_message [7, 7] true [.timeout] = some (false, [7, 7]) :=
  ⟨by decide, (read_message_spec.2.2.2.2 [7, 7] [] (by decide)).1⟩

/-- C8: `write_message` does write all bytes and return true on success, and
does return false on the two connection errors its except clause names — but
`BrokenPipeError`, the connection error `sendall` raises when the peer has
closed the connection, is not in that clause and propagates out of the
function instead of yielding a false return, contrary to the spec's "on any
connection error returns false" and to the function's own comment. -/
theorem write_message_broken_pipe_escapes :
    SocketUtil.write_message [1, 2, 3] none = .ok (true, [1, 2, 3]) ∧
    SocketUtil.write_message [1, 2, 3] (some (.connAborted, 1)) = .ok (false, [1]) ∧
    SocketUtil.write_message [1, 2, 3] (some (.connReset, 1)) = .ok (false, [1]) ∧
    isConnectionError .brokenPipe = true ∧
    SocketUtil.write_message [1, 2, 3] (some (.brokenPipe, 0)) = .error .brokenPipe :=
  ⟨rfl, rfl, rfl, rfl, rfl⟩

/-- Unpacking a byte recovers the eight MSB-first bits it was packed from. -/
lemma byteToBits_packByte (bits : List Nat) (hlen : bits.length = 8)
    (hlt : ∀ b ∈ bits, b < 2) : byteToBits (packByte bits) = bits := by
  rcases bits with _ | ⟨a, bits⟩; · simp at hlen
  rcases bits with _ | ⟨b, bits⟩; · simp at hlen
  rcases bits with _ | ⟨c, bits⟩; · simp at hlen
  rcases bits with _ | ⟨d, bits⟩; · simp at hlen
  rcases bits with _ | ⟨e, bits⟩; · simp at hlen
  rcases bits with _ | ⟨f, bits⟩; · simp at hlen
  rcases bits with _ | ⟨g, bits⟩; · simp at hlen
  rcases bits with _ | ⟨h, bits⟩; · simp at hlen
  rcases bits with _ | ⟨i, bits⟩
  · simp only [List.forall_mem_cons, List.not_mem_nil] at hlt
    obtain ⟨ha, hb, hc, hd, he, hf, hg, hh, -⟩ := hlt
    simp only [byteToBits, packByte, List.foldl, List.cons.injEq, and_true]
    omega
  · simp at hlen

/-- Every bit produced by `bitOf` (or by the zero padding) is 0 or 1. -/
lemma pad8_bits_lt_two (vs : List Nat) : ∀ b ∈ pad8 (vs.map bitOf), b < 2 := by
  intro b hb
  simp only [pad8, List.mem_append, List.mem_map, List.mem_replicate] at hb
  rcases hb with ⟨v, -, rfl⟩ | ⟨-, rfl⟩
  · simp only [bitOf]
    split <;> omega
  · omega

/-- Multiplying the derived bits by 255 recovers a 0/255-valued list. -/
lemma map_bitOf_mul_255 (vs : List Nat) (hv : ∀ v ∈ vs, v = 0 ∨ v = 255) :
    (vs.map bitOf).map (fun b => b * 255) = vs := by
  induction vs with
  | nil => simp
  | cons v rest ih =>
      simp only [List.forall_mem_cons] at hv
      simp only [List.map_cons, List.cons.injEq]
      constructor
      · rcases hv.1 with h | h <;> simp [h, bitOf]
      · exact ih hv.2

/-- The number of bytes `np.packbits` produces is ⌈length/8⌉. -/
lemma packbitsAux_length :
    ∀ (fuel : Nat) (vs : List Nat), vs.length ≤ fuel →
      (packbitsAux fuel vs).length = (vs.length + 7) / 8 := by
  intro fuel
  induction fuel with
  | zero =>
      intro vs hle
      cases vs with
      | nil => simp [packbitsAux]
      | cons v rest => simp at hle
  | succ fuel ih =>
      intro vs hle
      cases vs with
      | nil => simp [packbitsAux]
      | cons v rest =>
          rw [packbitsAux]
          simp only [List.length_cons, List.length_drop]
          rw [List.length_cons] at hle
          have hd := ih ((v :: rest).drop 8) (by simp [List.length_drop]; omega)
          simp only [List.length_drop, List.length_cons] at hd
          omega

/-- Round trip of the bit-packing: unpacking `length` bits from the packed
bytes and scaling by 255 recovers any 0/255-valued list. -/
lemma unpack_packbitsAux :
    ∀ (fuel : Nat) (vs : List Nat), vs.length ≤ fuel →
      (∀ v ∈ vs, v = 0 ∨ v = 255) →
      (((packbitsAux fuel vs).flatMap byteToBits).take vs.length).map (fun b => b * 255)
        = vs := by
  intro fuel
  induction fuel with
  | zero =>
      intro vs hle hv
      cases vs with
      | nil => simp [packbitsAux]
      | cons v rest => simp at hle
  | succ fuel ih =>
      intro vs hle hv
      cases vs with
      | nil => simp [packbitsAux]
      | cons v rest =>
          rw [packbitsAux, List.flatMap_cons]
          have hbyte :
              byteToBits (packByte (pad8 (((v :: rest).take 8).map bitOf)))
                = pad8 (((v :: rest).take 8).map bitOf) := by
            apply byteToBits_packByte
            · simp only [pad8, List.length_append, List.length_replicate,
                List.length_map, List.length_take]
              omega
            · exact pad8_bits_lt_two _
          rw [hbyte]
          by_cases hLen : (v :: rest).length ≤ 8
          · have hdrop : (v :: rest).drop 8 = [] := by
              rw [List.drop_eq_nil_iff]
              omega
            have htake : (v :: rest).take 8 = v :: rest := List.take_of_length_le hLen
            rw [hdrop, htake]
            cases fuel with
            | zero =>
                rw [show packbitsAux 0 ([] : List Nat) = [] from rfl]
                simp only [List.flatMap_nil, List.append_nil, pad8]
                rw [List.take_append_of_le_length (by simp), List.take_of_length_le (by simp)]
                exact map_bitOf_mul_255 _ hv
            | succ fuel =>
                rw [show packbitsAux (fuel + 1) ([] : List Nat) = [] from rfl]
                simp only [List.flatMap_nil, List.append_nil, pad8]
                rw [List.take_append_of_le_length (by simp), List.take_of_length_le (by simp)]
                exact map_bitOf_mul_255 _ hv
          · push_neg at hLen
            have hle' : (v :: rest).length ≤ fuel + 1 := hle
            have hbits : (((v :: rest).take 8).map bitOf).length = 8 := by
              simp only [List.length_map, List.length_take]
              omega
            have hpad : pad8 (((v :: rest).take 8).map bitOf)
                = ((v :: rest).take 8).map bitOf := by
              rw [pad8, hbits]
              simp
            have h1 : List.take ((v :: rest).length) (((v :: rest).take 8).map bitOf)
                = ((v :: rest).take 8).map bitOf :=
              List.take_of_length_le (by rw [hbits]; omega)
            rw [hpad, List.take_append_eq_append_take, h1, hbits]
            rw [List.map_append,
              map_bitOf_mul_255 _ (fun x hx => hv x (List.mem_of_mem_take hx))]
            have hdroplen : ((v :: rest).drop 8).length ≤ fuel := by
              rw [List.length_drop]
              omega
            have hrec := ih ((v :: rest).drop 8) hdroplen
              (fun x hx => hv x (List.mem_of_mem_drop hx))
            rw [List.length_drop] at hrec
            rw [hrec]
            exact List.take_append_drop 8 (v :: rest)

/-- C6: for a `BinaryMaskMessage` of shape (h, w) and any 0/255-valued mask
of that shape, `set_mask` succeeds, the stored buffer holds ⌈h·w/8⌉ packed
bytes, and `get_mask` returns exactly the original mask (round trip). -/
theorem binary_mask_round_trip (h w : Nat) (m : List Nat)
    (hlen : m.length = h * w) (hbin : ∀ v ∈ m, v = 0 ∨ v = 255) :
    ((BinaryMaskMessage.create (h, w)).set_mask ⟨(h, w), m⟩).2 = none ∧
    ((BinaryMaskMessage.create (h, w)).set_mask ⟨(h, w), m⟩).1.data.length = (h * w + 7) / 8 ∧
    ((BinaryMaskMessage.create (h, w)).set_mask ⟨(h, w), m⟩).1.get_mask
      = (⟨(h, w), m⟩ : Mask) := by
  have hset : (BinaryMaskMessage.create (h, w)).set_mask ⟨(h, w), m⟩
      = ({ mask_shape := (h, w), data := packbits m }, none) := by
    simp [BinaryMaskMessage.set_mask, BinaryMaskMessage.create]
  rw [hset]
  refine ⟨rfl, ?_, ?_⟩
  · show (packbits m).length = (h * w + 7) / 8
    rw [packbits, packbitsAux_length m.length m le_rfl, hlen]
  · show (⟨(h, w), (unpackbits (packbits m) (h * w)).map fun b => b * 255⟩ : Mask) = _
    rw [Mask.mk.injEq]
    refine ⟨rfl, ?_⟩
    rw [unpackbits, packbits, ← hlen]
    exact unpack_packbitsAux m.length m le_rfl hbin

/-- C6 witness: the round trip at a concrete 2×3 mask. -/
theorem binary_mask_round_trip_witness :
    ((BinaryMaskMessage.create (2, 3)).set_mask ⟨(2, 3), [0, 255, 0, 255, 255, 0]⟩).1.get_mask
      = (⟨(2, 3), [0, 255, 0, 255, 255, 0]⟩ : Mask) :=
  (binary_mask_round_trip 2 3 [0, 255, 0, 255, 255, 0] (by decide) (by decide)).2.2

/-- C9: `set_mask` raises exactly when the new mask's shape differs from the
shape declared at construction; when it raises the message (and hence its
buffer) is unchanged; when the shapes match the buffer is replaced by the
packed bits of the new mask and nothing is raised. -/
theorem set_mask_spec (msg : BinaryMaskMessage) (mask : Mask) :
    ((msg.set_mask mask).2.isSome ↔ mask.shape ≠ msg.mask_shape) ∧
    ((msg.set_mask mask).2.isSome → (msg.set_mask mask).1 = msg) ∧
    (mask.shape = msg.mask_shape →
      msg.set_mask mask = ({ msg with data := packbits mask.entries }, none)) := by
  by_cases hsh : mask.shape = msg.mask_shape <;>
    simp [BinaryMaskMessage.set_mask, hsh]

/-- C9 witness: a 2×2 mask offered to a 1×1 message raises and leaves the
message unchanged. -/
theorem set_mask_spec_witness :
    ((BinaryMaskMessage.create (1, 1)).set_mask ⟨(2, 2), [0, 0, 0, 0]⟩).1
      = BinaryMaskMessage.create (1, 1) :=
  (set_mask_spec (BinaryMaskMessage.create (1, 1)) ⟨(2, 2), [0, 0, 0, 0]⟩).2.1 (by decide)

/-- With all I/O succeeding, each iteration of the sender loop pops exactly
the head frame and appends header, frame and ack-read for it to the trace. -/
lemma senderRun_all_ok (comp : Nat → Nat) :
    ∀ (q : List Nat) (tr : List WireEvent),
      MappingClient.senderRun comp ⟨q, false, tr⟩ (List.replicate q.length (true, true, true))
        = ⟨[], false,
           tr ++ q.flatMap (fun f => [.header (comp f), .frame (comp f), .ackRead])⟩ := by
  intro q
  induction q with
  | nil => intro tr; simp [MappingClient.senderRun]
  | cons f rest ih =>
      intro tr
      rw [List.length_cons, List.replicate_succ]
      show MappingClient.senderRun comp
        (MappingClient.senderStep comp ⟨f :: rest, false, tr⟩ (true, true, true)) _ = _
      rw [show MappingClient.senderStep comp ⟨f :: rest, false, tr⟩ (true, true, true)
          = ⟨rest, false, tr ++ [.header (comp f), .frame (comp f), .ackRead]⟩ by
        simp [MappingClient.senderStep]]
      rw [ih]
      simp

/-- C3: in the sender loop, (a) a run with every write and ack-read
succeeding transmits the queued frames in order, each as header then frame
then ack-read — so frame N+1's messages only appear after the ack for frame N
— popping each head only after its ack, and drains the queue; (b) once the
termination flag is set, an iteration sends nothing and changes nothing;
(c) an iteration in which the header write, the frame write or the ack read
fails sets the termination flag and does not pop the head frame. -/
theorem sender_loop_spec (comp : Nat → Nat) :
    (∀ (q : List Nat) (tr : List WireEvent),
      MappingClient.senderRun comp ⟨q, false, tr⟩ (List.replicate q.length (true, true, true))
        = ⟨[], false,
           tr ++ q.flatMap (fun f => [.header (comp f), .frame (comp f), .ackRead])⟩) ∧
    (∀ st io, st.stop = true → MappingClient.senderStep comp st io = st) ∧
    (∀ (f : Nat) (rest : List Nat) (tr : List WireEvent) (io : Bool × Bool × Bool),
      ¬(io.1 = true ∧ io.2.1 = true ∧ io.2.2 = true) →
      (MappingClient.senderStep comp ⟨f :: rest, false, tr⟩ io).stop = true ∧
      (MappingClient.senderStep comp ⟨f :: rest, false, tr⟩ io).queue = f :: rest) := by
  refine ⟨senderRun_all_ok comp, ?_, ?_⟩
  · intro st io hstop
    simp [MappingClient.senderStep, hstop]
  · intro f rest tr io hio
    obtain ⟨w1, w2, w3⟩ := io
    cases w1 <;> cases w2 <;> cases w3 <;> simp_all [MappingClient.senderStep]

/-- C3 witness: an iteration whose frame write fails (header ok, ack
irrelevant) sets the termination flag and keeps the head frame queued. -/
theorem sender_loop_spec_witness :
    (MappingClient.senderStep id ⟨[5], false, []⟩ (true, false, true)).stop = true ∧
    (MappingClient.senderStep id ⟨[5], false, []⟩ (true, false, true)).queue = [5] :=
  (sender_loop_spec id).2.2 5 [] [] (true, false, true) (by decide)

/-- C4: `send_calibration_message` raises exactly when the calibration write
or the subsequent ack read fails; when it raises, the state is untouched (no
cached calibration, no queue initialisation, no sender thread); when it
succeeds, it caches the calibration, initialises the queue with capacity 1
and starts the sender thread. -/
theorem send_calibration_spec (st : MappingClientState) (calib : Nat) (w a : Bool) :
    ((MappingClient.send_calibration_message st calib w a).2 = true ↔ ¬(w = true ∧ a = true)) ∧
    ((MappingClient.send_calibration_message st calib w a).2 = true →
      (MappingClient.send_calibration_message st calib w a).1 = st) ∧
    ((MappingClient.send_calibration_message st calib w a).2 = false →
      (MappingClient.send_calibration_message st calib w a).1
        = ⟨some calib, some 1, true⟩) := by
  cases w <;> cases a <;> simp [MappingClient.send_calibration_message]

/-- C4 witness: a failed calibration write leaves a fresh client state
untouched. -/
theorem send_calibration_spec_witness :
    (MappingClient.send_calibration_message ⟨none, none, false⟩ 3 false true).1
      = ⟨none, none, false⟩ :=
  (send_calibration_spec ⟨none, none, false⟩ 3 false true).2.1 (by decide)

/-- C5: on END_DETECTION, (a) with skeletons stored from a prior
BEGIN_DETECTION and all writes succeeding, the service writes exactly
Simple<int>(len(data)), then Data(data), then BinaryMask(mask), and clears
the stored skeletons and mask; (b) with no skeletons stored (END before
BEGIN) it writes nothing and leaves its state unchanged, whatever the write
outcomes would have been; (c) a second END after one that had skeletons
writes nothing. -/
theorem skeleton_end_detection_spec (ser : List Nat → List Nat) (st : SkelServiceState)
    (sk : List Nat) (m : Mask) (w1 w2 w3 w4 w5 w6 : Bool) :
    (st.skeletons = some sk → st.people_mask = some m →
      SkeletonDetectionService.handleEndDetection ser st true true true
        = (⟨none, none⟩,
           [.simpleInt (ser sk).length, .dataMsg (ser sk),
            .binaryMask ((BinaryMaskMessage.create m.shape).set_mask m).1], true)) ∧
    (st.skeletons = none →
      SkeletonDetectionService.handleEndDetection ser st w1 w2 w3 = (st, [], true)) ∧
    (st.skeletons = some sk →
      (SkeletonDetectionService.handleEndDetection ser
        (SkeletonDetectionService.handleEndDetection ser st w1 w2 w3).1 w4 w5 w6).2.1
        = []) := by
  refine ⟨?_, ?_, ?_⟩
  · intro hsk hm
    simp [SkeletonDetectionService.handleEndDetection, hsk, hm]
  · intro hsk
    simp [SkeletonDetectionService.handleEndDetection, hsk]
  · intro hsk
    simp [SkeletonDetectionService.handleEndDetection, hsk]

/-- C5 witness: a concrete END_DETECTION with stored skeletons, followed by a
second END that writes nothing. -/
theorem skeleton_end_detection_spec_witness :
    SkeletonDetectionService.handleEndDetection id
        ⟨some [1, 2], some ⟨(1, 1), [255]⟩⟩ true true true
      = (⟨none, none⟩,
         [.simpleInt (id [1, 2] : List Nat).length, .dataMsg (id [1, 2]),
          .binaryMask ((BinaryMaskMessage.create ((1, 1) : Nat × Nat)).set_mask
            ⟨(1, 1), [255]⟩).1], true) :=
  (skeleton_end_detection_spec id ⟨some [1, 2], some ⟨(1, 1), [255]⟩⟩ [1, 2]
    ⟨(1, 1), [255]⟩ true true true true true true).1 rfl rfl

/-- C10: `has_more_frames` returns exactly the negation of `has_finished`
for every server state and client id; it ignores the client handlers and
their queues entirely; and for a client id not in the finished set — in
particular one that has never connected — it returns true. -/
theorem has_more_frames_spec (st : MappingServerState) (client_id : Nat) :
    MappingServer.has_more_frames st client_id
      = !MappingServer.has_finished st client_id ∧
    (∀ handlers, MappingServer.has_more_frames ⟨st.finished_clients, handlers⟩ client_id
      = MappingServer.has_more_frames st client_id) ∧
    (client_id ∉ st.finished_clients → MappingServer.has_more_frames st client_id = true) := by
  refine ⟨rfl, fun handlers => rfl, fun hmem => ?_⟩
  simp [MappingServer.has_more_frames, MappingServer.has_finished, hmem]

/-- C10 witness: a client id that never connected (absent from the finished
set and from the handlers) still has more frames, with another client's
non-empty queue present. -/
theorem has_more_frames_spec_witness :
    MappingServer.has_more_frames ⟨[0, 2], [(0, [7, 8])]⟩ 1 = true :=
  (has_more_frames_spec ⟨[0, 2], [(0, [7, 8])]⟩ 1).2.2 (by decide)

end SmgComms
